import Mathlib

/-!
Verification of the Voter-Turnout-Scorer pipeline.

The definitions below are a shallow embedding of the two source modules
`turnout_scorer/turnout_config.py` and `turnout_scorer/turnout_scorer.py`.
Dataframe cells are `Option String`, dates are a `Date` structure compared
through a numeric key, the Python `datetime.strptime` calls for the fixed
vote-history format `%m-%d-%Y` are implemented concretely, and the calls
using the user-configured registration/date-of-birth formats are taken as an
abstract parse parameter `parse : String -> String -> Option Date`
(format, text).  Exceptions escaping a function are modelled with `Except`,
and Spark SQL null propagation with `Option`.
-/

/-- Calendar date as produced by the Python `datetime` parsing in the source. -/
structure Date where
  year : Nat
  month : Nat
  day : Nat
deriving DecidableEq

/-- Linearisation of dates; chronological comparison of parsed dates in the
source is comparison of these keys (month is at most 12 and day at most 31
for every date the concrete parsers produce). -/
def Date.toKey (d : Date) : Nat :=
  (d.year * 13 + d.month) * 32 + d.day

/-- A nullable dataframe cell: Python `None` or a string value. -/
abbrev Cell := Option String

/-- The recurring source test `x not in (None, 'null')`. -/
def isRecorded (c : Cell) : Bool :=
  match c with
  | none => false
  | some s => s != "null"

/-- Python membership `cell in values` for a nullable cell and a list of
configured string values (`None` is never a member of a list of strings). -/
def cellMem (c : Cell) (l : List String) : Bool :=
  match c with
  | none => false
  | some s => l.contains s

/-- Split a character list at every occurrence of the separator character,
mirroring how the dashes of a date string divide it into fields. -/
def splitOnChar (sep : Char) : List Char → List (List Char)
  | [] => [[]]
  | a :: as =>
    let r := splitOnChar sep as
    if a = sep then [] :: r
    else
      match r with
      | [] => [[a]]
      | h :: t => (a :: h) :: t

/-- Numeric value of a list of decimal digit characters. -/
def digitsVal (cs : List Char) : Nat :=
  cs.foldl (fun a c => a * 10 + (c.toNat - 48)) 0

/-- All characters are decimal digits. -/
def allDigits (cs : List Char) : Bool :=
  cs.all (fun c => c.isDigit)

/-- Gregorian leap-year test, as used by Python `datetime` when validating a
day-of-month. -/
def isLeapYear (y : Nat) : Bool :=
  (y % 4 = 0 && y % 100 != 0) || y % 400 = 0

/-- Number of days of a month, as validated by Python `datetime`. -/
def daysInMonth (y m : Nat) : Nat :=
  if m = 2 then (if isLeapYear y then 29 else 28)
  else if m = 4 || m = 6 || m = 9 || m = 11 then 30
  else 31

/-- Concrete model of `datetime.strptime(s, '%m-%d-%Y')`, the fixed
`VHIST_DATE_FORMAT` of `turnout_config.py`: one or two digits of month, one
or two digits of day and exactly four digits of year (the `%Y` pattern of
CPython's strptime matches exactly four digits), separated by dashes; month
and day are range-checked against the calendar and the year must be at
least 1 (`datetime.MINYEAR`); `none` models the `ValueError` branch. -/
def strptimeMMDDYYYY (s : String) : Option Date :=
  match splitOnChar '-' s.data with
  | [ms, ds, ys] =>
    if allDigits ms && decide (1 ≤ ms.length) && decide (ms.length ≤ 2)
        && allDigits ds && decide (1 ≤ ds.length) && decide (ds.length ≤ 2)
        && allDigits ys && decide (ys.length = 4) then
      let m := digitsVal ms
      let d := digitsVal ds
      let y := digitsVal ys
      if decide (1 ≤ y) && decide (1 ≤ m) && decide (m ≤ 12) && decide (1 ≤ d)
          && decide (d ≤ daysInMonth y m) then
        some ⟨y, m, d⟩
      else none
    else none
  | _ => none

/-- Concrete model of `datetime.strptime(s, '%Y-%m-%d')`, used to instantiate
the abstract parse parameter on the ISO format in witnesses: exactly four
digits of year (at least 1), one or two digits of month and of day. -/
def strptimeYYYYMMDD (s : String) : Option Date :=
  match splitOnChar '-' s.data with
  | [ys, ms, ds] =>
    if allDigits ys && decide (ys.length = 4)
        && allDigits ms && decide (1 ≤ ms.length) && decide (ms.length ≤ 2)
        && allDigits ds && decide (1 ≤ ds.length) && decide (ds.length ≤ 2) then
      let y := digitsVal ys
      let m := digitsVal ms
      let d := digitsVal ds
      if decide (1 ≤ y) && decide (1 ≤ m) && decide (m ≤ 12) && decide (1 ≤ d)
          && decide (d ≤ daysInMonth y m) then
        some ⟨y, m, d⟩
      else none
    else none
  | _ => none

/-- Concrete dispatcher standing in for `datetime.strptime` on the two
format strings used in witnesses; any other format parses nothing. -/
def strptimeBy (fmt : String) (s : String) : Option Date :=
  if fmt = "%m-%d-%Y" then strptimeMMDDYYYY s
  else if fmt = "%Y-%m-%d" then strptimeYYYYMMDD s
  else none

/-- Two-digit zero padding. -/
def pad2 (n : Nat) : String :=
  if n < 10 then "0" ++ toString n else toString n

/-- Four-digit zero padding. -/
def pad4 (n : Nat) : String :=
  if n < 10 then "000" ++ toString n
  else if n < 100 then "00" ++ toString n
  else if n < 1000 then "0" ++ toString n
  else toString n

/-- Python `str()` of a `datetime.date`: the ISO rendering `YYYY-MM-DD`. -/
def isoString (d : Date) : String :=
  pad4 d.year ++ "-" ++ pad2 d.month ++ "-" ++ pad2 d.day

/-- Concrete `strftime` standing in for date formatting on the two format
strings used in witnesses. -/
def strftimeBy (fmt : String) (d : Date) : String :=
  if fmt = "%Y-%m-%d" then isoString d
  else if fmt = "%m-%d-%Y" then pad2 d.month ++ "-" ++ pad2 d.day ++ "-" ++ pad4 d.year
  else ""

/-! ### Configuration validation (`turnout_config.py`) -/

/-- The `vote_histories` loop of `TurnoutConfig._validated_config`
(`turnout_config.py`): iterate the election/date pairs in dictionary order
and `strptime` each date with the fixed `%m-%d-%Y` format; the first
`ValueError` is re-raised as a format error naming that election
(modelled as `Except.error` carrying the election name). -/
def validate_vote_histories (vhs : List (String × String)) : Except String Unit :=
  match vhs with
  | [] => Except.ok ()
  | (elec, elecdate) :: rest =>
    match strptimeMMDDYYYY elecdate with
    | some _ => validate_vote_histories rest
    | none => Except.error elec

/-! ### Preprocessing (`TurnoutScorer._preprocess_vf`) -/

/-- The possible fatal errors of `_preprocess_vf`. `invalidParty` is the
`ValueError` built from the party list and party field, `nameError` is the
`UnboundLocalError` hit when that `raise` line reads `parties_to_include`
although the party-filter branch never assigned it, and `duplicates` is the
`RuntimeError` for duplicate voter rows. -/
inductive PreprocessError where
  | invalidParty (parties : List String) (partyField : String)
  | nameError
  | duplicates
deriving DecidableEq

/-- The `TurnoutConfig.parties_included` property: the configured value if it
is a non-empty list, otherwise `None` (absent key and empty list both
disable party filtering with a warning). -/
def resolve_parties (cfg : Option (List String)) : Option (List String) :=
  match cfg with
  | none => none
  | some l => if l.isEmpty then none else some l

/-- `get_year_ob` from `_preprocess_vf`: year of a parsed date of birth, or
`current_year - 18` when the cell is `None`/`'null'`; an unparseable
non-null date of birth raises (`Except.error`). -/
def get_year_ob (parse : String → String → Option Date) (dob_format : String)
    (today : Date) (date_input : Cell) : Except Unit String :=
  match date_input with
  | none => Except.ok (toString (today.year - 18))
  | some s =>
    if s = "null" then Except.ok (toString (today.year - 18))
    else
      match parse dob_format s with
      | some d => Except.ok (toString d.year)
      | none => Except.error ()

/-- The dataframe `vdf` of `_preprocess_vf` after projecting each row to the
kept columns (`project`) and, when party filtering is enabled, keeping only
rows whose party cell is among the configured parties. -/
def projected_filtered {α β : Type} (project : α → β) (partyOf : β → Cell)
    (cfgParties : Option (List String)) (rows : List α) : List β :=
  let vdf0 := rows.map project
  match resolve_parties cfgParties with
  | some ps => vdf0.filter (fun r => cellMem (partyOf r) ps)
  | none => vdf0

/-- `TurnoutScorer._preprocess_vf` after the load and column checks: project
and party-filter the rows, raise when the result is empty (building the
`ValueError` message reads `parties_to_include`, which is unassigned when
filtering was disabled, so that path raises the name-resolution error
instead), raise on duplicate rows (`distinct().count() != count`), and only
then attach the derived `year_of_birth` column. -/
def preprocess_vf {α β : Type} [DecidableEq β] (project : α → β)
    (partyOf : β → Cell) (cfgParties : Option (List String))
    (partyField : String) (parse : String → String → Option Date)
    (dob_format : String) (today : Date) (dobOf : β → Cell)
    (rows : List α) : Except PreprocessError (List (β × Except Unit String)) :=
  let vdf := projected_filtered project partyOf cfgParties rows
  if vdf.length = 0 then
    match resolve_parties cfgParties with
    | some ps => Except.error (PreprocessError.invalidParty ps partyField)
    | none => Except.error PreprocessError.nameError
  else if vdf.dedup.length ≠ vdf.length then
    Except.error PreprocessError.duplicates
  else
    Except.ok (vdf.map (fun r => (r, get_year_ob parse dob_format today (dobOf r))))

/-! ### Election ordering and effective registration date -/

/-- Sort key of an election/date pair: the key of its parsed date (the
guarded uses below only reach it when the date parses). -/
def histKey (p : String × String) : Nat :=
  match strptimeMMDDYYYY p.2 with
  | some d => d.toKey
  | none => 0

/-- Comparison of election/date pairs by parsed election date: the sort
order of `sorted(dct, key=dct.get)`. -/
def histLe (a b : String × String) : Prop :=
  histKey a ≤ histKey b

instance : DecidableRel histLe :=
  fun a b => Nat.decLe (histKey a) (histKey b)

instance : IsTotal (String × String) histLe :=
  ⟨fun a b => Nat.le_total (histKey a) (histKey b)⟩

instance : IsTrans (String × String) histLe :=
  ⟨fun _ _ _ => Nat.le_trans⟩

/-- `TurnoutScorer._sort_vote_histories`: parse every configured election
date (a `ValueError` propagates, modelled as `Except.error`) and return the
election names sorted ascending by their parsed dates, ties kept in
dictionary order (Python `sorted` is a stable insertion by the key). -/
def sort_vote_histories (vhs : List (String × String)) : Except Unit (List String) :=
  if vhs.all (fun p => (strptimeMMDDYYYY p.2).isSome) then
    Except.ok ((List.insertionSort histLe vhs).map Prod.fst)
  else Except.error ()

/-- The loop of `effective_regis_date`: the first election name (in the
given order) whose vote cell passes `not in (None, 'null')`. -/
def first_recorded (svh : List String) (arr_of_elec : List Cell) : Option String :=
  ((svh.zip arr_of_elec).find? (fun p => isRecorded p.2)).map Prod.fst

/-- The `effective_regis_date` user function of
`TurnoutScorer._add_effective_reg_date`: start from today, replace it by the
parsed configured date of the first election whose cell is recorded (dict
lookup plus `strptime`, either failure raising), and render the result with
the configured registration-date format via `strftime` (`strf`). -/
def effective_regis_date (strf : String → Date → String) (reg_date_format : String)
    (today : Date) (vhs_w_d : List (String × String)) (svh : List String)
    (arr_of_elec : List Cell) : Except Unit String :=
  match first_recorded svh arr_of_elec with
  | none => Except.ok (strf reg_date_format today)
  | some name =>
    match vhs_w_d.lookup name with
    | none => Except.error ()
    | some dstr =>
      match strptimeMMDDYYYY dstr with
      | none => Except.error ()
      | some d => Except.ok (strf reg_date_format d)

/-- `TurnoutScorer._add_effective_reg_date` for one voter: sort the
configured elections, gather the voter's cells for the sorted election
columns, and apply `effective_regis_date`. -/
def add_effective_reg_date (strf : String → Date → String) (reg_date_format : String)
    (today : Date) (vhs : List (String × String)) (votes : String → Cell) :
    Except Unit String :=
  match sort_vote_histories vhs with
  | Except.error e => Except.error e
  | Except.ok svh => effective_regis_date strf reg_date_format today vhs svh (svh.map votes)

/-! ### Vote record cleaning (`clean_voting_record`) -/

/-- The `clean_voting_record` user function of
`TurnoutScorer._register_clean_voting_records`: a `None`/`'null'` stated
registration date is replaced by today's date (whose Python `str()` is the
ISO string), the election date is parsed with the fixed `%m-%d-%Y` format
outside any handler (failure raises, modelled `Except.error`), the stated
and effective registration dates are parsed with the configured
registration-date format inside a `try` whose `ValueError` branch returns
`None`, the earlier of the two parsed dates is compared with the election
date, and an eligible row becomes 1 or 0 by membership of the raw vote code
in the configured voted values. -/
def clean_voting_record (parse : String → String → Option Date) (today : Date)
    (reg_date_format : String) (voted_values : List String) (vote : Cell)
    (eff_reg_date : String) (reg_date : Cell) (elections_date : String) :
    Except Unit (Option Int) :=
  let rd_str : String :=
    match reg_date with
    | none => isoString today
    | some s => if s = "null" then isoString today else s
  match strptimeMMDDYYYY elections_date with
  | none => Except.error ()
  | some ed =>
    match parse reg_date_format rd_str, parse reg_date_format eff_reg_date with
    | some rd0, some erd =>
      let rd := if erd.toKey < rd0.toKey then erd else rd0
      if rd.toKey ≤ ed.toKey then
        if cellMem vote voted_values then Except.ok (some 1) else Except.ok (some 0)
      else Except.ok none
    | some _, none => Except.ok none
    | none, _ => Except.ok none

/-! ### Turnout weighting, aggregation and normalisation -/

/-- The per-election aggregate of `TurnoutScorer._add_weighted_vote`:
`SUM(cleaned)/COUNT(cleaned)` over the rows where the cleaned value is not
null; over an empty set SQL yields `SUM = NULL, COUNT = 0` and the division
is null. -/
def turnout_rate (cleaned : List (Option Int)) : Option ℚ :=
  let nn := cleaned.filterMap id
  if nn.length = 0 then none
  else some ((nn.sum : ℚ) / (nn.length : ℚ))

/-- The weighted column `col(cleaned) * (1 - nrm_fac)` with Spark null
propagation: null when the cleaned value or the rate is null. -/
def weighted_vote (c : Option Int) (nrm_fac : Option ℚ) : Option ℚ :=
  match c, nrm_fac with
  | some v, some r => some ((v : ℚ) * (1 - r))
  | some _, none => none
  | none, _ => none

/-- `get_weighted_sum` of `TurnoutScorer._add_weighted_turnout`: drop the
null entries of the weighted-vote array and sum the rest (the empty sum is
0.0). -/
def get_weighted_sum (arr_of_elec : List (Option ℚ)) : ℚ :=
  (arr_of_elec.filterMap id).sum

/-- SQL `MAX` over a list of rationals: null on the empty list. -/
def listMax : List ℚ → Option ℚ
  | [] => none
  | a :: as => some (as.foldl max a)

/-- The window aggregate `MAX(weighted_turnout) OVER (PARTITION BY cohort)`
of `TurnoutScorer._normalize_turnout`, for the cohort of one voter. -/
def cohort_max (voters : List (String × ℚ)) (cohort : String) : Option ℚ :=
  listMax ((voters.filter (fun w => w.1 = cohort)).map Prod.snd)

/-- `TurnoutScorer._normalize_turnout` on the (cohort key, weighted turnout)
table: each row gains `weighted_turnout / max_to` where `max_to` is the
cohort maximum; Spark SQL division by zero (and by null) is null. -/
def normalize_turnout (voters : List (String × ℚ)) : List (String × ℚ × Option ℚ) :=
  voters.map (fun v =>
    (v.1, v.2,
      match cohort_max voters v.1 with
      | some m => if m = 0 then none else some (v.2 / m)
      | none => none))

/-- A voter row as it stands after cleaning: the cohort key (the effective
registration date string) and the per-election cleaned votes in sorted
election order. -/
structure CleanRow where
  cohort : String
  cleaned : List (Option Int)
deriving DecidableEq

/-- The cleaned column of election `j` across all voters. -/
def election_column (rows : List CleanRow) (j : Nat) : List (Option Int) :=
  rows.map (fun r => r.cleaned.getD j none)

/-- The per-election turnout rates of `_add_weighted_vote` across `n`
elections. -/
def rates_of (rows : List CleanRow) (n : Nat) : List (Option ℚ) :=
  (List.range n).map (fun j => turnout_rate (election_column rows j))

/-- One voter's weighted-vote array across the `n` elections. -/
def weighted_row (rows : List CleanRow) (n : Nat) (r : CleanRow) : List (Option ℚ) :=
  (r.cleaned.zip (rates_of rows n)).map (fun p => weighted_vote p.1 p.2)

/-- One voter's raw score (`weighted_turnout`). -/
def weighted_turnout_of (rows : List CleanRow) (n : Nat) (r : CleanRow) : ℚ :=
  get_weighted_sum (weighted_row rows n r)

/-- The (cohort, weighted_turnout) table fed to `_normalize_turnout`. -/
def wt_table (rows : List CleanRow) (n : Nat) : List (String × ℚ) :=
  rows.map (fun r => (r.cohort, weighted_turnout_of rows n r))

/-- The composed weighting/aggregation/normalisation tail of
`compute_normalized_turnout`, from cleaned votes to normalised scores. -/
def normalized_pipeline (rows : List CleanRow) (n : Nat) :
    List (String × ℚ × Option ℚ) :=
  normalize_turnout (wt_table rows n)

/-! ### Definitions following the wording of the specification, for the
refinement comparisons -/

/-- Modelled from the spec: the Effective Registration Date Resolver as the
specification words it, for comparison with `add_effective_reg_date` — scan
the elections in ascending date order and take the date of the first one
whose raw vote cell is non-null/non-sentinel, today when there is none,
rendered with the configured registration-date format. -/
def effectiveRegDateSpec (strf : String → Date → String) (reg_date_format : String)
    (today : Date) (vhs : List (String × String)) (votes : String → Cell) : String :=
  match (List.insertionSort histLe vhs).find? (fun p => isRecorded (votes p.1)) with
  | some p =>
    match strptimeMMDDYYYY p.2 with
    | some d => strf reg_date_format d
    | none => strf reg_date_format today
  | none => strf reg_date_format today

/-! ## Theorems -/

/-- Claim C1: for a (voter, election) pair with a non-null, non-sentinel
stated registration date and a validated election date, the cleaner returns
1 when the earlier of the parsed stated and parsed effective registration
dates is on or before the election date and the raw vote code is in the
configured voted-value set, 0 when that eligibility date is on or before
the election date and the code is not in the set, null when the eligibility
date is after the election date, and null (an ordinary return, not an
exception) when either registration date fails to parse with the configured
registration-date format. -/
theorem clean_voting_record_ternary_spec
    (parse : String → String → Option Date) (today : Date)
    (reg_date_format : String) (voted_values : List String) (vote : Cell)
    (eff_reg_date : String) (s : String) (elections_date : String) (ed : Date)
    (hs : s ≠ "null") (hed : strptimeMMDDYYYY elections_date = some ed) :
    clean_voting_record parse today reg_date_format voted_values vote eff_reg_date
        (some s) elections_date =
      match parse reg_date_format s, parse reg_date_format eff_reg_date with
      | some rd, some erd =>
        if min rd.toKey erd.toKey ≤ ed.toKey then
          Except.ok (some (if cellMem vote voted_values then 1 else 0))
        else Except.ok none
      | some _, none => Except.ok none
      | none, _ => Except.ok none := by
  simp only [clean_voting_record, hed, if_neg hs]
  cases h1 : parse reg_date_format s <;>
    cases h2 : parse reg_date_format eff_reg_date <;>
      simp only [h1, h2]
  case some.some rd0 erd =>
    have hm : (if erd.toKey < rd0.toKey then erd else rd0).toKey
        = min rd0.toKey erd.toKey := by
      split <;> omega
    rw [hm]
    split
    · split <;> rfl
    · rfl

/-- Witness for C1 at the spec's own example: stated registration date
06-01-2019, effective date 01-01-2018, election date 11-06-2018, vote code
"Y" in the voted set, yielding cleaned = 1. -/
theorem clean_voting_record_ternary_spec_witness :
    ("06-01-2019" ≠ "null") ∧ strptimeMMDDYYYY "11-06-2018" = some ⟨2018, 11, 6⟩ ∧
      clean_voting_record strptimeBy ⟨2026, 10, 12⟩ "%m-%d-%Y" ["Y"] (some "Y")
        "01-01-2018" (some "06-01-2019") "11-06-2018" = Except.ok (some 1) :=
  ⟨by decide, by decide,
    (clean_voting_record_ternary_spec strptimeBy ⟨2026, 10, 12⟩ "%m-%d-%Y" ["Y"]
        (some "Y") "01-01-2018" "06-01-2019" "11-06-2018" ⟨2018, 11, 6⟩
        (by decide) (by decide)).trans rfl⟩

/-- Counterexample to claim C6: a voter whose stated registration date is
null, whose effective registration date 01-01-2016 parses with the
configured format %m-%d-%Y and precedes the election date 11-06-2018, and
whose vote code "Y" is in the voted set, still gets a null cleaned value:
the code substitutes today's date, but its Python string rendering is the
ISO form 2026-10-12, which the configured %m-%d-%Y format fails to parse,
so the try/except returns None. -/
theorem clean_null_regdate_not_labeled :
    strptimeBy "%m-%d-%Y" "01-01-2016" = some ⟨2016, 1, 1⟩ ∧
      strptimeMMDDYYYY "11-06-2018" = some ⟨2018, 11, 6⟩ ∧
      (⟨2016, 1, 1⟩ : Date).toKey ≤ (⟨2018, 11, 6⟩ : Date).toKey ∧
      cellMem (some "Y") ["Y"] = true ∧
      strptimeBy "%m-%d-%Y" (isoString ⟨2026, 10, 12⟩) = none ∧
      clean_voting_record strptimeBy ⟨2026, 10, 12⟩ "%m-%d-%Y" ["Y"] (some "Y")
        "01-01-2016" none "11-06-2018" = Except.ok none :=
  ⟨rfl, rfl, by decide, rfl, rfl, rfl⟩

/-- Claim C6 as amended: when the stated registration date is null or the
sentinel 'null', the cleaner substitutes today's date, whose string
rendering is the ISO form; only when the configured registration-date
format parses that ISO string (to a date no earlier than the effective
registration date) does the effective registration date alone govern
eligibility, the voter then getting a 0/1 label exactly for elections on or
after the effective registration date; otherwise the cleaned value is null. -/
theorem clean_null_regdate_amended (parse : String → String → Option Date)
    (today : Date) (reg_date_format : String) (voted_values : List String)
    (vote : Cell) (eff_reg_date : String) (reg_date : Cell)
    (elections_date : String) (ed td erd : Date)
    (hreg : reg_date = none ∨ reg_date = some "null")
    (hed : strptimeMMDDYYYY elections_date = some ed)
    (htoday : parse reg_date_format (isoString today) = some td)
    (herd : parse reg_date_format eff_reg_date = some erd)
    (hle : erd.toKey ≤ td.toKey) :
    clean_voting_record parse today reg_date_format voted_values vote eff_reg_date
        reg_date elections_date =
      if erd.toKey ≤ ed.toKey then
        Except.ok (some (if cellMem vote voted_values then 1 else 0))
      else Except.ok none := by
  have hm : (if erd.toKey < td.toKey then erd else td).toKey = erd.toKey := by
    split <;> omega
  have hcase : clean_voting_record parse today reg_date_format voted_values vote
      eff_reg_date reg_date elections_date
      = clean_voting_record parse today reg_date_format voted_values vote
        eff_reg_date none elections_date := by
    rcases hreg with rfl | rfl
    · rfl
    · rfl
  rw [hcase]
  simp only [clean_voting_record, hed, htoday, herd]
  rw [hm]
  split
  · split <;> rfl
  · rfl

/-- Witness for the amended C6: with the ISO registration-date format
%Y-%m-%d the substituted today-string does parse, and a voter with a null
stated date and effective date 2016-01-01 gets cleaned = 1 for the election
of 11-06-2018. -/
theorem clean_null_regdate_amended_witness :
    strptimeMMDDYYYY "11-06-2018" = some ⟨2018, 11, 6⟩ ∧
      strptimeBy "%Y-%m-%d" (isoString ⟨2026, 10, 12⟩) = some ⟨2026, 10, 12⟩ ∧
      strptimeBy "%Y-%m-%d" "2016-01-01" = some ⟨2016, 1, 1⟩ ∧
      (⟨2016, 1, 1⟩ : Date).toKey ≤ (⟨2026, 10, 12⟩ : Date).toKey ∧
      clean_voting_record strptimeBy ⟨2026, 10, 12⟩ "%Y-%m-%d" ["Y"] (some "Y")
        "2016-01-01" none "11-06-2018" = Except.ok (some 1) :=
  ⟨by decide, by decide, by decide, by decide,
    (clean_null_regdate_amended strptimeBy ⟨2026, 10, 12⟩ "%Y-%m-%d" ["Y"]
        (some "Y") "2016-01-01" none "11-06-2018" ⟨2018, 11, 6⟩ ⟨2026, 10, 12⟩
        ⟨2016, 1, 1⟩ (Or.inl rfl) (by decide) (by decide) (by decide)
        (by decide)).trans rfl⟩

/-- Claim C8: the configuration validator accepts the vote-histories map
exactly when every election-date string parses with the fixed MM-DD-YYYY
format, and when it rejects, the format error names an election whose date
string does not parse. -/
theorem vote_histories_format_validation (vhs : List (String × String)) :
    (validate_vote_histories vhs = Except.ok () ↔
      ∀ p ∈ vhs, (strptimeMMDDYYYY p.2).isSome = true) ∧
    ∀ e, validate_vote_histories vhs = Except.error e →
      ∃ d, (e, d) ∈ vhs ∧ strptimeMMDDYYYY d = none := by
  induction vhs with
  | nil => simp [validate_vote_histories]
  | cons hd tl ih =>
    obtain ⟨elec, elecdate⟩ := hd
    obtain ⟨ih1, ih2⟩ := ih
    cases h : strptimeMMDDYYYY elecdate with
    | some d =>
      constructor
      · rw [show validate_vote_histories ((elec, elecdate) :: tl)
            = validate_vote_histories tl by simp [validate_vote_histories, h]]
        simp only [List.mem_cons, ih1]
        constructor
        · rintro htl p (rfl | hp)
          · simp [h]
          · exact htl p hp
        · intro hall p hp
          exact hall p (Or.inr hp)
      · intro e he
        rw [show validate_vote_histories ((elec, elecdate) :: tl)
            = validate_vote_histories tl by simp [validate_vote_histories, h]] at he
        obtain ⟨d2, hd2, hn⟩ := ih2 e he
        exact ⟨d2, List.mem_cons_of_mem _ hd2, hn⟩
    | none =>
      constructor
      · rw [show validate_vote_histories ((elec, elecdate) :: tl)
            = Except.error elec by simp [validate_vote_histories, h]]
        constructor
        · intro hcontra
          cases hcontra
        · intro hall
          have := hall (elec, elecdate) (List.mem_cons_self _ _)
          rw [h] at this
          cases this
      · intro e he
        rw [show validate_vote_histories ((elec, elecdate) :: tl)
            = Except.error elec by simp [validate_vote_histories, h]] at he
        obtain rfl : elec = e := by cases he; rfl
        exact ⟨elecdate, List.mem_cons_self _ _, h⟩

/-- Witness for C8: a two-election configuration where the second date
13-45-0000 is not a valid MM-DD-YYYY date makes validation fail naming that
election. -/
theorem vote_histories_format_validation_witness :
    validate_vote_histories [("E1", "01-01-2016"), ("E2", "13-45-0000")]
        = Except.error "E2" ∧
      ∃ d, ("E2", d) ∈ [("E1", "01-01-2016"), ("E2", "13-45-0000")] ∧
        strptimeMMDDYYYY d = none :=
  ⟨rfl,
    (vote_histories_format_validation
        [("E1", "01-01-2016"), ("E2", "13-45-0000")]).2 "E2" rfl⟩

/-- Claim C9: if the voter table after projection (and any party filtering)
contains an exact duplicate row, preprocessing stops with the duplicates
error before producing the table that carries any derived column: the
result is `Except.error`, never a deduplicated `Except.ok` table. -/
theorem preprocess_duplicate_abort {α β : Type} [DecidableEq β] (project : α → β)
    (partyOf : β → Cell) (cfgParties : Option (List String)) (partyField : String)
    (parse : String → String → Option Date) (dob_format : String) (today : Date)
    (dobOf : β → Cell) (rows : List α) (x : β)
    (hdup : 2 ≤ (projected_filtered project partyOf cfgParties rows).count x) :
    preprocess_vf project partyOf cfgParties partyField parse dob_format today
        dobOf rows = Except.error PreprocessError.duplicates := by
  have hlen : 2 ≤ (projected_filtered project partyOf cfgParties rows).length :=
    le_trans hdup (List.count_le_length x _)
  have hnodup : ¬ (projected_filtered project partyOf cfgParties rows).Nodup := by
    intro h
    have := List.nodup_iff_count_le_one.mp h x
    omega
  have hded : (projected_filtered project partyOf cfgParties rows).dedup.length
      ≠ (projected_filtered project partyOf cfgParties rows).length := by
    intro h
    exact hnodup
      ((List.dedup_sublist _).eq_of_length h ▸ List.nodup_dedup _)
  unfold preprocess_vf
  rw [if_neg (by omega), if_pos hded]

/-- Witness for C9: a two-row table whose single row value is duplicated
aborts with the duplicates error. -/
theorem preprocess_duplicate_abort_witness :
    2 ≤ (projected_filtered (fun r : String => r) (fun _ => none) none
        ["a", "a"]).count "a" ∧
      preprocess_vf (fun r : String => r) (fun _ => none) none "party"
        strptimeBy "%m-%d-%Y" ⟨2026, 10, 12⟩ (fun _ => none) ["a", "a"]
        = Except.error PreprocessError.duplicates :=
  ⟨by decide,
    preprocess_duplicate_abort (fun r : String => r) (fun _ => none) none "party"
      strptimeBy "%m-%d-%Y" ⟨2026, 10, 12⟩ (fun _ => none) ["a", "a"] "a"
      (by decide)⟩

/-- Claim C10: when the projected voter table has zero rows, preprocessing
raises unconditionally — with party filtering disabled (configured parties
absent or the empty list) the raised error is the name-resolution failure
on the never-assigned party variables, otherwise it is the descriptive
invalid-party error — so an empty input table never reaches the
year-of-birth computation in either case. -/
theorem preprocess_empty_abort {α β : Type} [DecidableEq β] (project : α → β)
    (partyOf : β → Cell) (cfgParties : Option (List String)) (partyField : String)
    (parse : String → String → Option Date) (dob_format : String) (today : Date)
    (dobOf : β → Cell) (rows : List α)
    (hempty : rows.map project = []) :
    preprocess_vf project partyOf cfgParties partyField parse dob_format today
        dobOf rows =
      match resolve_parties cfgParties with
      | none => Except.error PreprocessError.nameError
      | some ps => Except.error (PreprocessError.invalidParty ps partyField) := by
  have hpf : projected_filtered project partyOf cfgParties rows = [] := by
    unfold projected_filtered
    rw [hempty]
    cases resolve_parties cfgParties <;> simp
  unfold preprocess_vf
  rw [hpf]
  cases resolve_parties cfgParties <;> simp

/-- Witness for C10: the empty table with party filtering disabled aborts
with the name-resolution error. -/
theorem preprocess_empty_abort_witness :
    (List.map (fun r : String => r) [] = []) ∧
      preprocess_vf (fun r : String => r) (fun _ => none) none "party"
        strptimeBy "%m-%d-%Y" ⟨2026, 10, 12⟩ (fun _ => none) ([] : List String)
        = Except.error PreprocessError.nameError :=
  ⟨rfl,
    (preprocess_empty_abort (fun r : String => r) (fun _ => none) none "party"
        strptimeBy "%m-%d-%Y" ⟨2026, 10, 12⟩ (fun _ => none) ([] : List String)
        rfl).trans rfl⟩

/-- Over a list of cleaned values that are all null, 0 or 1, the non-null
entries sum to the number of ones and count the non-null cells. -/
theorem ternary_filterMap_counts (l : List (Option Int))
    (h : ∀ c ∈ l, c = none ∨ c = some 0 ∨ c = some 1) :
    (l.filterMap id).sum = (l.countP (fun c => decide (c = some 1)) : Int) ∧
      (l.filterMap id).length = l.countP (fun c => Option.isSome c) := by
  induction l with
  | nil => simp
  | cons hd tl ih =>
    have htl := ih (fun c hc => h c (List.mem_cons_of_mem _ hc))
    rcases h hd (List.mem_cons_self _ _) with rfl | rfl | rfl
    · simpa [List.filterMap_cons, List.countP_cons] using htl
    · simp [List.filterMap_cons, List.countP_cons, htl.1, htl.2]
    · simp only [List.filterMap_cons, List.countP_cons, List.sum_cons,
        List.length_cons, htl.1, htl.2, id, decide_True, if_true,
        Option.isSome_some]
      constructor
      · push_cast
        ring
      · simp

/-- Claim C3: with the turnout rate of an election equal to the number of
voters cleaned to 1 divided by the number of voters with a non-null cleaned
value, every voter's weighted vote equals cleaned_value * (1 - rate) when
the cleaned value is non-null and is null when the cleaned value is null.
The hypothesis that cleaned values are null/0/1 is exactly the range of
`clean_voting_record`. -/
theorem weighted_vote_turnout_rate_spec (cleaned : List (Option Int))
    (h : ∀ c ∈ cleaned, c = none ∨ c = some 0 ∨ c = some 1)
    (hnn : 0 < cleaned.countP (fun c => Option.isSome c)) :
    turnout_rate cleaned =
        some ((cleaned.countP (fun c => decide (c = some 1)) : ℚ) /
          (cleaned.countP (fun c => Option.isSome c) : ℚ)) ∧
      ∀ c ∈ cleaned,
        weighted_vote c (turnout_rate cleaned) =
          match c with
          | some v => some ((v : ℚ) * (1 -
              (cleaned.countP (fun c => decide (c = some 1)) : ℚ) /
                (cleaned.countP (fun c => Option.isSome c) : ℚ)))
          | none => none := by
  obtain ⟨hsum, hlen⟩ := ternary_filterMap_counts cleaned h
  have hrate : turnout_rate cleaned =
      some ((cleaned.countP (fun c => decide (c = some 1)) : ℚ) /
        (cleaned.countP (fun c => Option.isSome c) : ℚ)) := by
    unfold turnout_rate
    rw [if_neg (by omega)]
    congr 1
    rw [hsum, hlen]
    push_cast
    ring
  refine ⟨hrate, fun c hc => ?_⟩
  rcases h c hc with rfl | rfl | rfl <;> simp only [weighted_vote, hrate]

/-- Witness for C3 at the spec's example rate: cleaned values
[1, 0, null, 1, 0, 1] give rate 3/5 and a cleaned 1 weights to
1 * (1 - 3/5) = 0.4; a cleaned null weights to null. -/
theorem weighted_vote_turnout_rate_spec_witness :
    (∀ c ∈ ([some 1, some 0, none, some 1, some 0, some 1] : List (Option Int)),
        c = none ∨ c = some 0 ∨ c = some 1) ∧
      0 < List.countP (fun c => Option.isSome c)
        ([some 1, some 0, none, some 1, some 0, some 1] : List (Option Int)) ∧
      weighted_vote (some 1)
          (turnout_rate [some 1, some 0, none, some 1, some 0, some 1]) =
        some ((1 : ℚ) * (1 - 3 / 5)) ∧
      weighted_vote none
          (turnout_rate [some 1, some 0, none, some 1, some 0, some 1]) = none := by
  refine ⟨by decide, by decide, ?_, ?_⟩
  · have hc1 : List.countP (fun c => decide (c = some 1))
        ([some 1, some 0, none, some 1, some 0, some 1] : List (Option Int)) = 3 := by
      decide
    have hc2 : List.countP (fun c => Option.isSome c)
        ([some 1, some 0, none, some 1, some 0, some 1] : List (Option Int)) = 5 := by
      decide
    have h := (weighted_vote_turnout_rate_spec
        [some 1, some 0, none, some 1, some 0, some 1] (by decide) (by decide)).2
        (some 1) (by decide)
    rw [h, hc1, hc2]
    norm_num
  · have h := (weighted_vote_turnout_rate_spec
        [some 1, some 0, none, some 1, some 0, some 1] (by decide) (by decide)).2
        none (by decide)
    exact h

/-- Claim C4: a voter's raw score is the sum of the non-null weighted-vote
values — numerically the same as treating nulls as zero — and a voter whose
weighted votes are all null gets the empty sum 0. -/
theorem weighted_sum_spec (arr : List (Option ℚ)) :
    get_weighted_sum arr = (arr.map (fun o => o.getD 0)).sum ∧
      ((∀ x ∈ arr, x = none) → get_weighted_sum arr = 0) := by
  constructor
  · induction arr with
    | nil => rfl
    | cons hd tl ih =>
      cases hd <;> simp [get_weighted_sum, List.filterMap_cons, List.sum_cons] <;>
        simpa [get_weighted_sum] using ih
  · intro h
    have : arr.filterMap id = [] := by
      rw [List.filterMap_eq_nil_iff]
      intro a ha
      rw [h a ha]
      rfl
    simp [get_weighted_sum, this]

/-- Witness for C4: two null weighted votes sum to 0. -/
theorem weighted_sum_spec_witness :
    (∀ x ∈ ([none, none] : List (Option ℚ)), x = none) ∧
      get_weighted_sum [none, none] = 0 :=
  ⟨by decide, (weighted_sum_spec [none, none]).2 (by decide)⟩

/-- The seed of a running maximum never exceeds the result. -/
theorem le_foldl_max (as : List ℚ) (acc : ℚ) : acc ≤ as.foldl max acc := by
  induction as generalizing acc with
  | nil => exact le_refl acc
  | cons a l ih => exact le_trans (le_max_left acc a) (ih (max acc a))

/-- Every element of a list is at most the running maximum over it. -/
theorem mem_le_foldl_max (as : List ℚ) (acc x : ℚ) (hx : x ∈ as) :
    x ≤ as.foldl max acc := by
  induction as generalizing acc with
  | nil => cases hx
  | cons a l ih =>
    rcases List.mem_cons.mp hx with rfl | h
    · exact le_trans (le_max_right acc x) (le_foldl_max l (max acc x))
    · exact ih (max acc a) h

/-- Every member of a list is at most its SQL maximum. -/
theorem mem_le_listMax (l : List ℚ) (x m : ℚ) (hx : x ∈ l)
    (hm : listMax l = some m) : x ≤ m := by
  cases l with
  | nil => cases hx
  | cons a as =>
    obtain rfl : as.foldl max a = m := by
      simpa [listMax] using hm
    rcases List.mem_cons.mp hx with rfl | h
    · exact le_foldl_max as x
    · exact mem_le_foldl_max as a x h

/-- A running maximum is the seed or one of the elements. -/
theorem foldl_max_mem (as : List ℚ) (acc : ℚ) :
    as.foldl max acc = acc ∨ as.foldl max acc ∈ as := by
  induction as generalizing acc with
  | nil => exact Or.inl rfl
  | cons a l ih =>
    rcases ih (max acc a) with h | h
    · rcases max_choice acc a with h2 | h2
      · exact Or.inl (by rw [List.foldl_cons, h, h2])
      · exact Or.inr (by rw [List.foldl_cons, h, h2]; exact List.mem_cons_self _ _)
    · exact Or.inr (List.mem_cons_of_mem _ h)

/-- The SQL maximum of a list is one of its members. -/
theorem listMax_mem (l : List ℚ) (m : ℚ) (hm : listMax l = some m) : m ∈ l := by
  cases l with
  | nil => cases hm
  | cons a as =>
    obtain rfl : as.foldl max a = m := by
      simpa [listMax] using hm
    rcases foldl_max_mem as a with h | h
    · rw [h]; exact List.mem_cons_self _ _
    · exact List.mem_cons_of_mem _ h

/-- Claim C5: every voter's normalised turnout is their raw weighted
turnout divided by the cohort maximum, the cohort being the voters sharing
the same effective-registration-date value; the divisor really is the
maximum of that cohort (it bounds every cohort score and is attained). The
nonzero hypothesis reflects that Spark SQL division by zero would be null. -/
theorem normalize_turnout_cohort_spec (voters : List (String × ℚ)) (i : Nat)
    (c : String) (w m : ℚ) (hi : voters[i]? = some (c, w))
    (hm : cohort_max voters c = some m) (hm0 : m ≠ 0) :
    (normalize_turnout voters)[i]? = some (c, w, some (w / m)) ∧
      (∀ x ∈ (voters.filter (fun v => v.1 = c)).map Prod.snd, x ≤ m) ∧
      m ∈ (voters.filter (fun v => v.1 = c)).map Prod.snd := by
  refine ⟨?_, fun x hx => mem_le_listMax _ x m hx hm, listMax_mem _ m hm⟩
  unfold normalize_turnout
  rw [List.getElem?_map, hi, Option.map_some']
  rw [show ((c, w) : String × ℚ).1 = c from rfl, hm]
  simp [if_neg hm0]

/-- Witness for C5 at the spec's example: cohort scores [1.2, 0.6, 0.0]
normalise to [1.0, 0.5, 0.0]; shown here for the middle voter,
0.6 / 1.2 = 0.5. -/
theorem normalize_turnout_cohort_spec_witness :
    cohort_max [("d", 6/5), ("d", 3/5), ("d", 0)] "d" = some (6/5) ∧
      ((6 : ℚ)/5 ≠ 0) ∧
      (normalize_turnout [("d", 6/5), ("d", 3/5), ("d", 0)])[1]? =
        some ("d", 3/5, some ((3/5) / (6/5))) ∧
      ((3 : ℚ)/5) / (6/5) = 1/2 := by
  have h1 : cohort_max [("d", 6/5), ("d", 3/5), ("d", 0)] "d" = some (6/5) := by
    norm_num [cohort_max, listMax, List.filter]
  refine ⟨h1, by norm_num, ?_, by norm_num⟩
  exact (normalize_turnout_cohort_spec [("d", 6/5), ("d", 3/5), ("d", 0)] 1
      "d" (3/5) (6/5) rfl h1 (by norm_num)).1

/-- Dictionary lookup on an association list with distinct keys returns the
value of any member pair. -/
theorem lookup_eq_of_mem_nodup (l : List (String × String)) (p : String × String)
    (hnd : (l.map Prod.fst).Nodup) (hp : p ∈ l) : l.lookup p.1 = some p.2 := by
  induction l with
  | nil => cases hp
  | cons a l2 ih =>
    have hnd2 : (a.1 :: l2.map Prod.fst).Nodup := by simpa using hnd
    rcases List.mem_cons.mp hp with rfl | hmem
    · simp [List.lookup]
    · have hne : p.1 ≠ a.1 := by
        intro he
        exact (List.nodup_cons.mp hnd2).1
          (he ▸ List.mem_map_of_mem Prod.fst hmem)
      have hbeq : (p.1 == a.1) = false := beq_eq_false_iff_ne.mpr hne
      rw [List.lookup, hbeq]
      exact ih (List.nodup_cons.mp hnd2).2 hmem

/-- The loop of `effective_regis_date`, presented over the pairs list: the
first recorded election name of the zipped arrays is the name of the first
pair whose vote cell is recorded. -/
theorem first_recorded_eq (votes : String → Cell) (l : List (String × String)) :
    first_recorded (l.map Prod.fst) ((l.map Prod.fst).map votes)
      = (l.find? (fun p => isRecorded (votes p.1))).map Prod.fst := by
  induction l with
  | nil => rfl
  | cons a l2 ih =>
    simp only [List.map_cons, first_recorded, List.zip_cons_cons, List.find?]
    cases h : isRecorded (votes a.1) with
    | true => simp [h]
    | false =>
      simp only [h]
      exact ih

/-- Claim C2: on a validated configuration with distinct election names,
the effective registration date of a voter is the configured date of the
first election, in ascending parsed-date order, whose raw vote cell is
neither null nor the sentinel 'null' — today's date when there is none —
rendered as a string with the configured registration-date format; and the
scanned order really is ascending (sorted by parsed election date, a
permutation of the configured elections). -/
theorem effective_reg_date_spec_ok (strf : String → Date → String)
    (reg_date_format : String) (today : Date) (vhs : List (String × String))
    (votes : String → Cell)
    (hparse : ∀ p ∈ vhs, (strptimeMMDDYYYY p.2).isSome = true)
    (hkeys : (vhs.map Prod.fst).Nodup) :
    add_effective_reg_date strf reg_date_format today vhs votes
        = Except.ok (effectiveRegDateSpec strf reg_date_format today vhs votes) ∧
      List.Sorted histLe (List.insertionSort histLe vhs) ∧
      List.Perm (List.insertionSort histLe vhs) vhs := by
  refine ⟨?_, List.sorted_insertionSort histLe vhs,
    List.perm_insertionSort histLe vhs⟩
  have hperm := List.perm_insertionSort histLe vhs
  have hsort : sort_vote_histories vhs
      = Except.ok ((List.insertionSort histLe vhs).map Prod.fst) := by
    unfold sort_vote_histories
    rw [if_pos (List.all_eq_true.mpr hparse)]
  unfold add_effective_reg_date
  simp only [hsort]
  unfold effective_regis_date effectiveRegDateSpec
  rw [first_recorded_eq]
  cases hfind : (List.insertionSort histLe vhs).find?
      (fun p => isRecorded (votes p.1)) with
  | none => rfl
  | some p =>
    have hmem : p ∈ vhs := hperm.mem_iff.mp (List.mem_of_find?_eq_some hfind)
    obtain ⟨d, hd⟩ := Option.isSome_iff_exists.mp (hparse p hmem)
    simp only [Option.map_some', lookup_eq_of_mem_nodup vhs p hkeys hmem, hd]

/-- Witness for C2 at the spec's example: elections of 2016, 2018 and 2020
configured out of order, a voter with cells [null, "Y", null] in date order,
effective registration date 2018-01-01 rendered with the ISO registration
format. -/
theorem effective_reg_date_spec_ok_witness :
    (∀ p ∈ [("E3", "01-01-2020"), ("E1", "01-01-2016"), ("E2", "01-01-2018")],
        (strptimeMMDDYYYY p.2).isSome = true) ∧
      (([("E3", "01-01-2020"), ("E1", "01-01-2016"),
        ("E2", "01-01-2018")].map Prod.fst).Nodup) ∧
      add_effective_reg_date strftimeBy "%Y-%m-%d" ⟨2026, 10, 12⟩
          [("E3", "01-01-2020"), ("E1", "01-01-2016"), ("E2", "01-01-2018")]
          (fun n => if n = "E2" then some "Y" else if n = "E3" then some "null" else none)
        = Except.ok "2018-01-01" :=
  ⟨by decide, by decide,
    ((effective_reg_date_spec_ok strftimeBy "%Y-%m-%d" ⟨2026, 10, 12⟩
        [("E3", "01-01-2020"), ("E1", "01-01-2016"), ("E2", "01-01-2018")]
        (fun n => if n = "E2" then some "Y" else if n = "E3" then some "null" else none)
        (by decide) (by decide)).1).trans rfl⟩

/-- Every entry of a cleaned election column is null, 0 or 1 when every
voter's cleaned values are. -/
theorem election_column_ternary (rows : List CleanRow) (j : Nat)
    (hvals : ∀ r ∈ rows, ∀ c ∈ r.cleaned, c = none ∨ c = some 0 ∨ c = some 1) :
    ∀ c ∈ election_column rows j, c = none ∨ c = some 0 ∨ c = some 1 := by
  intro c hc
  obtain ⟨r, hr, rfl⟩ := List.mem_map.mp hc
  rw [List.getD_eq_getElem?_getD]
  cases h : r.cleaned[j]? with
  | none => exact Or.inl rfl
  | some c2 => exact hvals r hr c2 (List.getElem?_mem h)

/-- A list of integers that are all 0 or 1 sums within [0, length]. -/
theorem zero_one_sum_bounds (l : List Int)
    (h : ∀ x ∈ l, x = 0 ∨ x = 1) : 0 ≤ l.sum ∧ l.sum ≤ (l.length : Int) := by
  induction l with
  | nil => simp
  | cons hd tl ih =>
    have htl := ih (fun x hx => h x (List.mem_cons_of_mem _ hx))
    have hhd := h hd (List.mem_cons_self _ _)
    simp only [List.sum_cons, List.length_cons]
    rcases hhd with rfl | rfl <;> push_cast <;> omega

/-- A defined turnout rate over null/0/1 cleaned values lies in [0, 1]. -/
theorem turnout_rate_bounds (col : List (Option Int))
    (h : ∀ c ∈ col, c = none ∨ c = some 0 ∨ c = some 1) (r : ℚ)
    (hr : turnout_rate col = some r) : 0 ≤ r ∧ r ≤ 1 := by
  unfold turnout_rate at hr
  by_cases hlen : (col.filterMap id).length = 0
  · rw [if_pos hlen] at hr
    cases hr
  · rw [if_neg hlen] at hr
    obtain rfl : ((col.filterMap id).sum : ℚ) / ((col.filterMap id).length : ℚ)
        = r := by
      simpa using hr
    have hentries : ∀ x ∈ col.filterMap id, x = 0 ∨ x = 1 := by
      intro x hx
      obtain ⟨c, hc, hcx⟩ := List.mem_filterMap.mp hx
      rcases h c hc with rfl | rfl | rfl
      · cases hcx
      · exact Or.inl (by cases hcx; rfl)
      · exact Or.inr (by cases hcx; rfl)
    obtain ⟨hs0, hs1⟩ := zero_one_sum_bounds _ hentries
    have hlpos : (0 : ℚ) < ((col.filterMap id).length : ℚ) := by
      exact_mod_cast Nat.pos_of_ne_zero hlen
    constructor
    · exact div_nonneg (by exact_mod_cast hs0) (le_of_lt hlpos)
    · rw [div_le_one hlpos]
      exact_mod_cast hs1

/-- Every non-null entry of a voter's weighted-vote array is non-negative
when cleaned values are null/0/1. -/
theorem weighted_row_entries_nonneg (rows : List CleanRow) (n : Nat) (r : CleanRow)
    (hr : r ∈ rows)
    (hvals : ∀ r2 ∈ rows, ∀ c ∈ r2.cleaned, c = none ∨ c = some 0 ∨ c = some 1) :
    ∀ q : ℚ, some q ∈ weighted_row rows n r → 0 ≤ q := by
  intro q hq
  obtain ⟨p, hp, hpq⟩ := List.mem_map.mp hq
  obtain ⟨hc, hrate⟩ := List.of_mem_zip hp
  unfold weighted_vote at hpq
  cases hcval : p.1 with
  | none => rw [hcval] at hpq; cases hpq
  | some v =>
    cases hrval : p.2 with
    | none => rw [hcval, hrval] at hpq; cases hpq
    | some rt =>
      rw [hcval, hrval] at hpq
      obtain rfl : (v : ℚ) * (1 - rt) = q := by
        cases hpq
        rfl
      have hv : (0 : ℚ) ≤ (v : ℚ) := by
        rcases hvals r hr p.1 hc with h0 | h0 | h0 <;> rw [hcval] at h0
        · cases h0
        · cases h0
          norm_num
        · cases h0
          norm_num
      have hrt : 0 ≤ rt ∧ rt ≤ 1 := by
        have hmem := hrval ▸ hrate
        obtain ⟨j, _, hj⟩ := List.mem_map.mp hmem
        exact turnout_rate_bounds (election_column rows j)
          (election_column_ternary rows j hvals) rt hj
      exact mul_nonneg hv (by linarith [hrt.2])

/-- A weighted sum of entries that are non-negative wherever non-null is
non-negative. -/
theorem get_weighted_sum_nonneg (arr : List (Option ℚ))
    (h : ∀ q : ℚ, some q ∈ arr → 0 ≤ q) : 0 ≤ get_weighted_sum arr := by
  unfold get_weighted_sum
  refine List.sum_nonneg ?_
  intro x hx
  obtain ⟨c, hc, hcx⟩ := List.mem_filterMap.mp hx
  exact h x (by rw [show c = some x from hcx] at hc; exact hc)

/-- Claim C7: for a voter whose cohort maximum raw score is strictly
positive, the pipeline's normalised turnout is defined and lies in [0, 1]:
cleaned values in {null, 0, 1} give per-election rates in [0, 1], hence
non-negative weighted votes, hence a non-negative raw score bounded by the
cohort maximum. -/
theorem normalized_turnout_unit_interval (rows : List CleanRow) (n : Nat)
    (hvals : ∀ r ∈ rows, ∀ c ∈ r.cleaned, c = none ∨ c = some 0 ∨ c = some 1)
    (i : Nat) (r : CleanRow) (hr : rows[i]? = some r) (m : ℚ)
    (hm : cohort_max (wt_table rows n) r.cohort = some m) (hpos : 0 < m) :
    (normalized_pipeline rows n)[i]? =
        some (r.cohort, weighted_turnout_of rows n r,
          some (weighted_turnout_of rows n r / m)) ∧
      0 ≤ weighted_turnout_of rows n r / m ∧
      weighted_turnout_of rows n r / m ≤ 1 := by
  have hrow : (wt_table rows n)[i]? = some (r.cohort, weighted_turnout_of rows n r) := by
    unfold wt_table
    rw [List.getElem?_map, hr, Option.map_some']
  have hwt0 : 0 ≤ weighted_turnout_of rows n r :=
    get_weighted_sum_nonneg _
      (weighted_row_entries_nonneg rows n r (List.getElem?_mem hr) hvals)
  have hwtm : weighted_turnout_of rows n r ≤ m := by
    refine mem_le_listMax _ _ m ?_ hm
    refine List.mem_map.mpr
      ⟨(r.cohort, weighted_turnout_of rows n r), ?_, rfl⟩
    exact List.mem_filter.mpr ⟨List.getElem?_mem hrow, by simp⟩
  refine ⟨?_, div_nonneg hwt0 (le_of_lt hpos), (div_le_one hpos).mpr hwtm⟩
  unfold normalized_pipeline normalize_turnout
  rw [List.getElem?_map, hrow, Option.map_some']
  rw [show ((r.cohort, weighted_turnout_of rows n r) : String × ℚ).1 = r.cohort from rfl,
    hm]
  simp [if_neg (ne_of_gt hpos)]

/-- Witness for C7: two voters in one cohort with one election, cleaned
votes 1 and 0, turnout rate 1/2, raw scores 1/2 and 0, cohort maximum 1/2;
the first voter's normalised score lies in [0, 1]. -/
theorem normalized_turnout_unit_interval_witness :
    cohort_max (wt_table ([⟨"d", [some 1]⟩, ⟨"d", [some 0]⟩] : List CleanRow) 1) "d"
        = some (1/2) ∧
      (0 : ℚ) < 1/2 ∧
      (0 ≤ weighted_turnout_of ([⟨"d", [some 1]⟩, ⟨"d", [some 0]⟩] : List CleanRow) 1
          ⟨"d", [some 1]⟩ / (1/2) ∧
        weighted_turnout_of ([⟨"d", [some 1]⟩, ⟨"d", [some 0]⟩] : List CleanRow) 1
          ⟨"d", [some 1]⟩ / (1/2) ≤ 1) := by
  have hrate : turnout_rate [some 1, some 0] = some (1/2) := by
    simp [turnout_rate, List.filterMap_cons]
  have hrates : rates_of ([⟨"d", [some 1]⟩, ⟨"d", [some 0]⟩] : List CleanRow) 1
      = [some (1/2)] := by
    simp [rates_of, election_column, List.range_succ, hrate]
  have hw1 : weighted_turnout_of ([⟨"d", [some 1]⟩, ⟨"d", [some 0]⟩] : List CleanRow) 1
      ⟨"d", [some 1]⟩ = 1/2 := by
    norm_num [weighted_turnout_of, weighted_row, hrates, get_weighted_sum,
      weighted_vote, List.filterMap_cons]
  have hw2 : weighted_turnout_of ([⟨"d", [some 1]⟩, ⟨"d", [some 0]⟩] : List CleanRow) 1
      ⟨"d", [some 0]⟩ = 0 := by
    norm_num [weighted_turnout_of, weighted_row, hrates, get_weighted_sum,
      weighted_vote, List.filterMap_cons]
  have hwt : wt_table ([⟨"d", [some 1]⟩, ⟨"d", [some 0]⟩] : List CleanRow) 1
      = [("d", 1/2), ("d", 0)] := by
    simp only [wt_table, List.map_cons, List.map_nil, hw1, hw2]
  have hm : cohort_max (wt_table ([⟨"d", [some 1]⟩, ⟨"d", [some 0]⟩] : List CleanRow) 1)
      "d" = some (1/2) := by
    rw [hwt]
    norm_num [cohort_max, listMax, List.filter]
  exact ⟨hm, by norm_num,
    (normalized_turnout_unit_interval ([⟨"d", [some 1]⟩, ⟨"d", [some 0]⟩] : List CleanRow)
      1 (by decide) 0 ⟨"d", [some 1]⟩ rfl (1/2) hm (by norm_num)).2⟩
